import Mathlib

/-!
Verification of the `gosh` session store (package gosh, files gosh.go and the
unnamed companion file with `GetBatch`).

The package keeps a `Room` with two Go maps guarded by one mutex:
`sessions : map[string]map[string]string` and `watchers : map[string]chan struct{}`.
We embed the maps as association lists keyed by `String`; the values of the watcher map (unbuffered channels) carry no data relevant to the map-level claims, so
the watcher map is embedded as the list of its keys.  The goroutine side
(the `dispatcher.watch` timer and the `killWatch` reaper, and the unbuffered
channel rendezvous) is embedded separately as explicit state machines.
-/

namespace Gosh

/-- The three error values declared at the top of gosh.go:
`ErrAlreadyExists`, `ErrDoesntExist` (the `NotFound` of the spec) and
`ErrKeyDoesntExist` (the `KeyNotFound` of the spec). -/
inductive Err where
  | alreadyExists
  | doesntExist
  | keyDoesntExist
deriving DecidableEq, Repr

/-- A session: the inner Go map `map[string]string`, embedded as an
association list (first binding wins on lookup). -/
abbrev Session := List (String × String)

/-- Go map read `m[k]` returning `(value?, ok)`: lookup of the first binding
of key `k` in an association list. -/
def lookupKV {α : Type} : List (String × α) → String → Option α
  | [], _ => none
  | (k', v) :: rest, k => if k' = k then some v else lookupKV rest k

/-- Go map write `m[k] = v` on a `Session`: overwrite the binding of `k` if
present, append it otherwise. -/
def setKV : Session → String → String → Session
  | [], k, v => [(k, v)]
  | (k', v') :: rest, k, v =>
      if k' = k then (k, v) :: rest else (k', v') :: setKV rest k v

/-- Go map write `r.sessions[iden][key] = value`: update the inner map bound
to `iden` in the outer association list. -/
def setSession : List (String × Session) → String → String → String → List (String × Session)
  | [], _, _, _ => []
  | (i, s) :: rest, iden, key, value =>
      if i = iden then (i, setKV s key value) :: rest
      else (i, s) :: setSession rest iden key value

/-- The `Room` struct: the session table and the key set of the watcher map
(`watchers : map[string]chan struct{}`).  The mutex, dispatcher and killer
channel are not part of the map-level state. -/
structure Room where
  sessions : List (String × Session)
  watchers : List String
deriving DecidableEq, Repr

/-- The map state made by `NewRoom`: both maps start empty. -/
def Room.new : Room := ⟨[], []⟩

/-- `Room.accessCheck(iden, key)`: `ErrDoesntExist` if `iden` is absent from
`sessions` or from `watchers`; then, only when `key != ""`, `ErrKeyDoesntExist`
if `key` is absent from the session; `nil` otherwise. -/
def Room.accessCheck (r : Room) (iden key : String) : Option Err :=
  if (lookupKV r.sessions iden).isNone then some .doesntExist
  else if iden ∉ r.watchers then some .doesntExist
  else if key ≠ "" then
    if (lookupKV ((lookupKV r.sessions iden).getD []) key).isNone then
      some .keyDoesntExist
    else none
  else none

/-- `Room.Add(iden)`: `ErrAlreadyExists` if `iden` is in `sessions` or in
`watchers`, leaving the room as it was; otherwise insert an empty session and
a fresh watcher entry (the code also spawns `dispatcher.watch` on the new
channel; the goroutine lives outside the map state, see `watchStep`). -/
def Room.add (r : Room) (iden : String) : Option Err × Room :=
  if (lookupKV r.sessions iden).isSome then (some .alreadyExists, r)
  else if iden ∈ r.watchers then (some .alreadyExists, r)
  else (none, { sessions := (iden, []) :: r.sessions, watchers := iden :: r.watchers })

/-- `Room.Get(iden, key)`: on a failed `accessCheck` return its error and
`""`; otherwise return `r.sessions[iden][key]` (Go yields the zero value `""`
when the key is absent, which only happens here for `key = ""`).  The activity
send `r.watchers[iden] <- struct{}{}` does not touch the maps; its blocking
behaviour is modelled by `sysSuccs`. -/
def Room.get (r : Room) (iden key : String) : Except Err String :=
  match r.accessCheck iden key with
  | some e => .error e
  | none => .ok ((lookupKV ((lookupKV r.sessions iden).getD []) key).getD "")

/-- The loop body of `Room.GetBatch`: walk the keys in order; on the first key
absent from the session return `ErrKeyDoesntExist` and no values, otherwise
collect the values in key order. -/
def getValues (s : Session) : List String → Except Err (List String)
  | [] => .ok []
  | k :: ks =>
      if (lookupKV s k).isNone then .error .keyDoesntExist
      else
        match getValues s ks with
        | .error e => .error e
        | .ok vs => .ok ((lookupKV s k).getD "" :: vs)

/-- `Room.GetBatch(iden, keys...)`: `accessCheck(iden, "")`, then the key
loop; a `nil` slice (here: the `error` branch carrying no values) on any
failure. -/
def Room.getBatch (r : Room) (iden : String) (keys : List String) : Except Err (List String) :=
  match r.accessCheck iden "" with
  | some e => .error e
  | none => getValues ((lookupKV r.sessions iden).getD []) keys

/-- `Room.Set(iden, key, value)`: `accessCheck(iden, "")`, then
`r.sessions[iden][key] = value`; the room is unchanged on error. -/
def Room.set (r : Room) (iden key value : String) : Option Err × Room :=
  match r.accessCheck iden "" with
  | some e => (some e, r)
  | none => (none, { r with sessions := setSession r.sessions iden key value })

/-- `Room.Del(iden)`: `accessCheck(iden, "")`, then `delete` `iden` from both
maps; the room is unchanged on error. -/
def Room.del (r : Room) (iden : String) : Option Err × Room :=
  match r.accessCheck iden "" with
  | some e => (some e, r)
  | none =>
      (none,
       { sessions := r.sessions.filter (fun p => p.1 ≠ iden),
         watchers := r.watchers.filter (fun i => i ≠ iden) })

/-- One iteration of the reaper loop `Room.killWatch` after receiving `iden`
from the killer channel: `err := r.Del(iden)` with `err` discarded
(`// handle err`). -/
def Room.killWatchStep (r : Room) (iden : String) : Room := (r.del iden).2

/-- The map states a `Room` can reach from `NewRoom` through the facade:
`Add`, `Set`, `Del` (explicit or via `killWatchStep` of the reaper); `Get` and
`GetBatch` do not write the maps. -/
inductive Reachable : Room → Prop
  | new : Reachable Room.new
  | add (iden : String) {r : Room} : Reachable r → Reachable (r.add iden).2
  | set (iden key value : String) {r : Room} : Reachable r → Reachable (r.set iden key value).2
  | del (iden : String) {r : Room} : Reachable r → Reachable (r.del iden).2
  | kill (iden : String) {r : Room} : Reachable r → Reachable (r.killWatchStep iden)

/-! ## The timeout timer `dispatcher.watch`

`watch(iden, ping, kill)` loops on a `select`: a receive on `ping` sets
`left = d.lifetime` and loops; `<-time.After(left)` sends `iden` on `kill` and
returns.  We embed it as a state machine: *armed* carries the current
countdown `left`; *terminated* is the returned goroutine, which processes no
further event (a later `ping` send finds no receiver; that blocking is the
subject of `sysSuccs`). -/

/-- The state of one `dispatcher.watch` goroutine. -/
inductive TimerState where
  | armed (left : Nat)
  | terminated
deriving DecidableEq, Repr

/-- The two events the `select` in `watch` can observe: a value on `ping`, or
`time.After(left)` elapsing. -/
inductive TimerEvent where
  | ping
  | timeout
deriving DecidableEq, Repr

/-- One turn of the `watch` loop with lifetime `d` for session `iden`: the new
state and the identifiers emitted on the `kill` channel during that turn. -/
def watchStep (d : Nat) (iden : String) : TimerState → TimerEvent → TimerState × List String
  | .armed _, .ping => (.armed d, [])
  | .armed _, .timeout => (.terminated, [iden])
  | .terminated, _ => (.terminated, [])

/-- Run the `watch` machine over a sequence of events, collecting everything
emitted on the `kill` channel. -/
def watchRun (d : Nat) (iden : String) : TimerState → List TimerEvent → TimerState × List String
  | s, [] => (s, [])
  | s, e :: es =>
      let (s', out) := watchStep d iden s e
      let (s'', out') := watchRun d iden s' es
      (s'', out ++ out')

/-! ## The concurrency of one session around expiration

A finite transition system for one session (created, so its row exists), its
`watch` goroutine, the `killWatch` reaper and one client calling `Get` on it.
Channels (`watchers[iden]` and `killer`) are created with capacity 0, so a
send is a rendezvous: it happens only together with a receive.  The mutex is
held by the client exactly from acquiring it in `Get` until `Get` returns;
`Del` (by the reaper) acquires and releases it within one transition. -/

/-- Phase of the `watch` goroutine: in its `select` (`armed`), blocked on
`kill <- iden` after the timeout branch fired (`sendKill`), or returned
(`exited`). -/
inductive TimerPh where
  | armed
  | sendKill
  | exited
deriving DecidableEq, Repr

/-- Phase of the reaper `killWatch`: blocked on `<-r.killer` (`recvKill`), or
holding an identifier and about to call `r.Del` (`delPending`). -/
inductive ReaperPh where
  | recvKill
  | delPending
deriving DecidableEq, Repr

/-- Phase of a client calling `Room.Get` on the session: before `Lock`
(`start`), holding the mutex and blocked on `r.watchers[iden] <- struct{}{}`
(`sendPing`), or returned (`done`). -/
inductive ClientPh where
  | start
  | sendPing
  | done
deriving DecidableEq, Repr

/-- Joint state: the three tasks plus whether the session row is still in
the maps. -/
structure Sys where
  timer : TimerPh
  reaper : ReaperPh
  client : ClientPh
  session : Bool
deriving DecidableEq, Repr

/-- After `Add`: row present, timer in its `select`, reaper at `<-r.killer`,
client about to call `Get`. -/
def sysInit : Sys := ⟨.armed, .recvKill, .start, true⟩

/-- All transitions enabled in a state:
1. `time.After` elapses: the timer leaves `select` for `kill <- iden`.
2. Rendezvous on the unbuffered `killer`: timer exits, reaper gets the iden.
3. The `Del` call of the reaper runs (needs the mutex, i.e. the client must not hold
   it): row deleted, reaper back to `<-r.killer`.
4. The `Get` call of the client acquires the mutex and runs `accessCheck`: if the row
   exists it proceeds to the ping send still holding the mutex; otherwise it
   returns `ErrDoesntExist`, releasing the mutex.
5. Rendezvous on the unbuffered `watchers[iden]`: only a timer still in its
   `select` can receive, then `Get` returns and releases the mutex. -/
def sysSuccs (s : Sys) : List Sys :=
  (if s.timer = .armed then [{ s with timer := .sendKill }] else []) ++
  (if s.timer = .sendKill ∧ s.reaper = .recvKill then
    [{ s with timer := .exited, reaper := .delPending }] else []) ++
  (if s.reaper = .delPending ∧ s.client ≠ .sendPing then
    [{ s with reaper := .recvKill, session := false }] else []) ++
  (if s.client = .start then
    (if s.session then [{ s with client := .sendPing }]
     else [{ s with client := .done }]) else []) ++
  (if s.client = .sendPing ∧ s.timer = .armed then
    [{ s with client := .done }] else [])

/-- States reachable from `sysInit` by the enabled transitions. -/
inductive SysReach : Sys → Prop
  | init : SysReach sysInit
  | step {s s' : Sys} : SysReach s → s' ∈ sysSuccs s → SysReach s'

/-- The stuck state: timer fired and exited, reaper holds the identifier but
cannot take the mutex, the client holds the mutex blocked on the ping send,
and the session row still exists. -/
def sysStuck : Sys := ⟨.exited, .delPending, .sendPing, true⟩

/-! ## Helper lemmas on association lists -/

theorem lookupKV_eq_none_iff {α : Type} (l : List (String × α)) (k : String) :
    lookupKV l k = none ↔ k ∉ l.map Prod.fst := by
  induction l with
  | nil => simp [lookupKV]
  | cons hd tl ih =>
    obtain ⟨k', v⟩ := hd
    by_cases h : k' = k
    · subst h; simp [lookupKV]
    · simp [lookupKV, h, ih, Ne.symm h]

theorem mem_of_lookupKV_isSome {α : Type} {l : List (String × α)} {k : String}
    (h : (lookupKV l k).isSome) : k ∈ l.map Prod.fst := by
  by_contra hk
  rw [← lookupKV_eq_none_iff] at hk
  rw [hk] at h
  simp at h

theorem lookupKV_isSome_of_mem {α : Type} {l : List (String × α)} {k : String}
    (h : k ∈ l.map Prod.fst) : (lookupKV l k).isSome := by
  cases he : lookupKV l k with
  | none => exact absurd h ((lookupKV_eq_none_iff l k).mp he)
  | some v => rfl

theorem lookupKV_setKV_self (s : Session) (k v : String) :
    lookupKV (setKV s k v) k = some v := by
  induction s with
  | nil => simp [setKV, lookupKV]
  | cons hd tl ih =>
    obtain ⟨k', v'⟩ := hd
    by_cases h : k' = k
    · subst h; simp [setKV, lookupKV]
    · simp [setKV, lookupKV, h, ih]

theorem lookupKV_setKV_ne (s : Session) (k v k' : String) (h : k' ≠ k) :
    lookupKV (setKV s k v) k' = lookupKV s k' := by
  induction s with
  | nil => simp [setKV, lookupKV, Ne.symm h]
  | cons hd tl ih =>
    obtain ⟨k₀, v₀⟩ := hd
    by_cases h0 : k₀ = k
    · subst h0; simp [setKV, lookupKV, Ne.symm h]
    · simp only [setKV, if_neg h0]
      by_cases h1 : k₀ = k'
      · subst h1; simp [lookupKV]
      · simp [lookupKV, h1, ih]

theorem lookupKV_setSession (ss : List (String × Session)) (iden key value j : String) :
    lookupKV (setSession ss iden key value) j =
      if j = iden then (lookupKV ss j).map (fun s => setKV s key value)
      else lookupKV ss j := by
  induction ss with
  | nil => simp [setSession, lookupKV]
  | cons hd tl ih =>
    obtain ⟨i, s⟩ := hd
    by_cases hi : i = iden
    · subst hi
      by_cases hj : i = j
      · subst hj; simp [setSession, lookupKV]
      · simp [setSession, lookupKV, hj, ih, Ne.symm hj]
    · simp only [setSession, if_neg hi]
      by_cases hj : i = j
      · subst hj
        simp [lookupKV, hi]
      · simp [lookupKV, hj, ih]

theorem setSession_map_fst (ss : List (String × Session)) (iden key value : String) :
    (setSession ss iden key value).map Prod.fst = ss.map Prod.fst := by
  induction ss with
  | nil => simp [setSession]
  | cons hd tl ih =>
    obtain ⟨i, s⟩ := hd
    by_cases hi : i = iden
    · simp [setSession, hi]
    · simp [setSession, hi, ih]

theorem filter_map_fst {α : Type} (l : List (String × α)) (iden : String) :
    (l.filter (fun p => p.1 ≠ iden)).map Prod.fst =
      (l.map Prod.fst).filter (fun i => i ≠ iden) := by
  induction l with
  | nil => rfl
  | cons hd tl ih =>
    obtain ⟨i, s⟩ := hd
    by_cases hi : i = iden <;> simpa [List.filter_cons, hi] using ih

/-! ## Helper lemmas on `accessCheck` and the operations -/

/-- With the empty key, `accessCheck` can only report `ErrDoesntExist`. -/
theorem accessCheck_empty_key (r : Room) (iden : String) :
    r.accessCheck iden "" = none ∨ r.accessCheck iden "" = some .doesntExist := by
  unfold Room.accessCheck
  cases he : lookupKV r.sessions iden with
  | none => right; simp [he]
  | some s =>
    by_cases h2 : iden ∈ r.watchers
    · left; simp [he, h2]
    · right; simp [he, h2]

/-- `accessCheck` with the empty key succeeds exactly when the identifier is
in both maps. -/
theorem accessCheck_empty_key_none_iff (r : Room) (iden : String) :
    r.accessCheck iden "" = none ↔ (lookupKV r.sessions iden).isSome ∧ iden ∈ r.watchers := by
  unfold Room.accessCheck
  cases he : lookupKV r.sessions iden with
  | none => simp [he]
  | some s =>
    by_cases h2 : iden ∈ r.watchers
    · simp [he, h2]
    · simp [he, h2]

/-- `accessCheck` reports `ErrDoesntExist` when the identifier is absent from
the session table, whatever the key. -/
theorem accessCheck_absent (r : Room) (iden key : String)
    (h : lookupKV r.sessions iden = none) :
    r.accessCheck iden key = some .doesntExist := by
  unfold Room.accessCheck
  simp [h]

/-- Successful `Get`: identifier in both maps and key bound means `Get`
returns the bound value (this also covers `key = ""` when `""` is bound). -/
theorem get_ok (r : Room) (iden key v : String) (s : Session)
    (hs : lookupKV r.sessions iden = some s) (hw : iden ∈ r.watchers)
    (hk : lookupKV s key = some v) :
    r.get iden key = .ok v := by
  unfold Room.get Room.accessCheck
  by_cases hkey : key = ""
  · subst hkey; simp [hs, hw, hk]
  · simp [hs, hw, hk, hkey]

/-- Successful `Set`: identifier in both maps means `Set` succeeds and writes
through `setSession`. -/
theorem set_ok (r : Room) (iden key value : String)
    (hs : (lookupKV r.sessions iden).isSome) (hw : iden ∈ r.watchers) :
    r.set iden key value =
      (none, { r with sessions := setSession r.sessions iden key value }) := by
  unfold Room.set
  have h := (accessCheck_empty_key_none_iff r iden).mpr ⟨hs, hw⟩
  simp [h]

/-! ## The lock-step invariant -/

/-- The two maps agree on their key sets (in fact on the listed key order) and
the watcher map binds each identifier once. -/
def lockStep (r : Room) : Prop :=
  r.sessions.map Prod.fst = r.watchers ∧ r.watchers.Nodup

theorem lockStep_add (r : Room) (iden : String) (h : lockStep r) :
    lockStep (r.add iden).2 := by
  unfold Room.add lockStep
  by_cases h1 : (lookupKV r.sessions iden).isSome
  · simpa [h1] using h
  · by_cases h2 : iden ∈ r.watchers
    · simpa [h1, h2] using h
    · constructor
      · simp [h1, h2, h.1]
      · simp only [h1, h2]
        simp [List.nodup_cons, h2, h.2]

theorem lockStep_set (r : Room) (iden key value : String) (h : lockStep r) :
    lockStep (r.set iden key value).2 := by
  unfold Room.set lockStep
  cases hac : r.accessCheck iden "" with
  | some e => simpa [hac] using h
  | none =>
    constructor
    · simp [hac, setSession_map_fst, h.1]
    · simpa [hac] using h.2

theorem lockStep_del (r : Room) (iden : String) (h : lockStep r) :
    lockStep (r.del iden).2 := by
  unfold Room.del lockStep
  cases hac : r.accessCheck iden "" with
  | some e => simpa [hac] using h
  | none =>
    constructor
    · simp only [hac]
      rw [filter_map_fst, h.1]
    · simp only [hac]
      exact h.2.filter _

theorem reachable_lockStep {r : Room} (h : Reachable r) : lockStep r := by
  induction h with
  | new => exact ⟨rfl, List.nodup_nil⟩
  | add iden h ih => exact lockStep_add _ iden ih
  | set iden key value h ih => exact lockStep_set _ iden key value ih
  | del iden h ih => exact lockStep_del _ iden ih
  | kill iden h ih => exact lockStep_del _ iden ih

/-- Claim C4: in every reachable `Room` state an identifier is in the session
table iff it has an entry in the watcher map, that entry is unique, and every
operation — `Add`, `Set`, `Del` (also as run by the reaper) — preserves this
lock-step agreement of the two maps. -/
theorem claim_C4_lock_step (r : Room) (h : Reachable r) :
    (∀ id : String, (lookupKV r.sessions id).isSome ↔ id ∈ r.watchers) ∧
    r.watchers.Nodup ∧ (r.sessions.map Prod.fst).Nodup ∧
    (∀ iden key value : String,
      lockStep (r.add iden).2 ∧ lockStep (r.set iden key value).2 ∧
      lockStep (r.del iden).2 ∧ lockStep (r.killWatchStep iden)) := by
  obtain ⟨h1, h2⟩ := reachable_lockStep h
  refine ⟨?_, h2, h1 ▸ h2, ?_⟩
  · intro id
    constructor
    · intro hs
      rw [← h1]
      exact mem_of_lookupKV_isSome hs
    · intro hw
      exact lookupKV_isSome_of_mem (h1 ▸ hw)
  · intro iden key value
    exact ⟨lockStep_add r iden ⟨h1, h2⟩, lockStep_set r iden key value ⟨h1, h2⟩,
      lockStep_del r iden ⟨h1, h2⟩, lockStep_del r iden ⟨h1, h2⟩⟩

/-- Witness for C4 at the concrete reachable room with one session. -/
theorem claim_C4_lock_step_witness :
    (∀ id : String,
      (lookupKV ((Room.new.add "a").2).sessions id).isSome ↔ id ∈ ((Room.new.add "a").2).watchers) ∧
    ((Room.new.add "a").2).watchers.Nodup :=
  ⟨(claim_C4_lock_step (Room.new.add "a").2 (Reachable.add "a" Reachable.new)).1,
   (claim_C4_lock_step (Room.new.add "a").2 (Reachable.add "a" Reachable.new)).2.1⟩

/-- Claim C5: `Add(id)` returns `AlreadyExists` exactly when `id` already has
a session or a watcher entry, and then leaves the room untouched; on success
it inserts an empty session and a fresh watcher entry for `id`, and a second
`Add(id)` returns `AlreadyExists` leaving the new room unchanged. -/
theorem claim_C5_add_unique (r : Room) (iden : String) :
    ((r.add iden).1 = some Err.alreadyExists ↔
      (lookupKV r.sessions iden).isSome ∨ iden ∈ r.watchers) ∧
    ((r.add iden).1 = some Err.alreadyExists → (r.add iden).2 = r) ∧
    ((r.add iden).1 = none →
      lookupKV (r.add iden).2.sessions iden = some [] ∧
      iden ∈ (r.add iden).2.watchers ∧
      ((r.add iden).2.add iden).1 = some Err.alreadyExists ∧
      ((r.add iden).2.add iden).2 = (r.add iden).2) := by
  unfold Room.add
  by_cases h1 : (lookupKV r.sessions iden).isSome
  · simp [h1]
  · by_cases h2 : iden ∈ r.watchers
    · simp [h1, h2]
    · simp only [h1, h2, if_false, if_true, ite_false, ite_true]
      refine ⟨by simp [h1, h2], by simp, ?_⟩
      intro _
      refine ⟨by simp [lookupKV], by simp, ?_, ?_⟩
      · simp [lookupKV]
      · simp [lookupKV]

/-- Witness for C5: adding `"a"` to the empty room, then adding it again. -/
theorem claim_C5_add_unique_witness :
    lookupKV (Room.new.add "a").2.sessions "a" = some [] ∧
    ((Room.new.add "a").2.add "a").1 = some Err.alreadyExists ∧
    ((Room.new.add "a").2.add "a").2 = (Room.new.add "a").2 :=
  ⟨((claim_C5_add_unique Room.new "a").2.2 rfl).1,
   ((claim_C5_add_unique Room.new "a").2.2 rfl).2.2.1,
   ((claim_C5_add_unique Room.new "a").2.2 rfl).2.2.2⟩

/-- Claim C7: on an identifier absent from the session table, `Get`,
`GetBatch`, `Set` and `Del` all return `ErrDoesntExist`, and every failing
`Add`, `Set` or `Del` leaves the session table and the watcher map exactly as
they were (`Get` and `GetBatch` never write them at all). -/
theorem claim_C7_missing_session (r : Room) (id key value : String) (keys : List String)
    (h : lookupKV r.sessions id = none) :
    r.get id key = .error Err.doesntExist ∧
    r.getBatch id keys = .error Err.doesntExist ∧
    (r.set id key value).1 = some Err.doesntExist ∧ (r.set id key value).2 = r ∧
    (r.del id).1 = some Err.doesntExist ∧ (r.del id).2 = r ∧
    (∀ i : String, (r.add i).1.isSome → (r.add i).2 = r) ∧
    (∀ i k v : String, (r.set i k v).1.isSome → (r.set i k v).2 = r) ∧
    (∀ i : String, (r.del i).1.isSome → (r.del i).2 = r) := by
  have hac : ∀ k, r.accessCheck id k = some Err.doesntExist :=
    fun k => accessCheck_absent r id k h
  refine ⟨?_, ?_, ?_, ?_, ?_, ?_, ?_, ?_, ?_⟩
  · unfold Room.get; rw [hac key]
  · unfold Room.getBatch; rw [hac ""]
  · unfold Room.set; rw [hac ""]
  · unfold Room.set; rw [hac ""]
  · unfold Room.del; rw [hac ""]
  · unfold Room.del; rw [hac ""]
  · intro i
    unfold Room.add
    by_cases h1 : (lookupKV r.sessions i).isSome
    · simp [h1]
    · by_cases h2 : i ∈ r.watchers
      · simp [h1, h2]
      · simp [h1, h2]
  · intro i k v
    unfold Room.set
    cases hc : r.accessCheck i "" with
    | some e => simp [hc]
    | none => simp [hc]
  · intro i
    unfold Room.del
    cases hc : r.accessCheck i "" with
    | some e => simp [hc]
    | none => simp [hc]

/-- Witness for C7 on the empty room and identifier `"nope"`. -/
theorem claim_C7_missing_session_witness :
    Room.new.get "nope" "k" = .error Err.doesntExist ∧
    Room.new.getBatch "nope" ["k"] = .error Err.doesntExist ∧
    (Room.new.set "nope" "k" "v").1 = some Err.doesntExist ∧
    (Room.new.del "nope").1 = some Err.doesntExist ∧
    (Room.new.del "nope").2 = Room.new :=
  ⟨(claim_C7_missing_session Room.new "nope" "k" "v" ["k"] rfl).1,
   (claim_C7_missing_session Room.new "nope" "k" "v" ["k"] rfl).2.1,
   (claim_C7_missing_session Room.new "nope" "k" "v" ["k"] rfl).2.2.1,
   (claim_C7_missing_session Room.new "nope" "k" "v" ["k"] rfl).2.2.2.2.1,
   (claim_C7_missing_session Room.new "nope" "k" "v" ["k"] rfl).2.2.2.2.2.1⟩

/-- Claim C9: the reaper loop calls the ordinary `Del` and discards its error;
the only error that `Del` can produce is `ErrDoesntExist` (the key check of
`accessCheck` is skipped for the empty key), and when the session was already
removed the reaper step leaves the room unchanged. -/
theorem claim_C9_reaper_swallow (r : Room) (iden : String) :
    ((r.del iden).1 = none ∨ (r.del iden).1 = some Err.doesntExist) ∧
    r.killWatchStep iden = (r.del iden).2 ∧
    (lookupKV r.sessions iden = none → r.killWatchStep iden = r) := by
  refine ⟨?_, rfl, ?_⟩
  · unfold Room.del
    rcases accessCheck_empty_key r iden with hac | hac
    · left; rw [hac]
    · right; rw [hac]
  · intro h
    unfold Room.killWatchStep Room.del
    rw [accessCheck_absent r iden "" h]

/-- Witness for C9: the reaper deleting an already-deleted session on the
empty room is a no-op. -/
theorem claim_C9_reaper_swallow_witness :
    Room.new.killWatchStep "a" = Room.new ∧
    ((Room.new.del "a").1 = none ∨ (Room.new.del "a").1 = some Err.doesntExist) :=
  ⟨(claim_C9_reaper_swallow Room.new "a").2.2 rfl,
   (claim_C9_reaper_swallow Room.new "a").1⟩

/-- Claim C10: with the two maps in lock-step, `Get(id, "")` never returns
`ErrKeyDoesntExist`: the key-existence check is skipped for the empty key, so
`Get` returns the value stored under `""` when present and `""` otherwise, and
its only possible error is `ErrDoesntExist` for an absent session. -/
theorem claim_C10_empty_key (r : Room) (id : String)
    (hInv : r.sessions.map Prod.fst = r.watchers) :
    r.get id "" ≠ .error Err.keyDoesntExist ∧
    (lookupKV r.sessions id = none → r.get id "" = .error Err.doesntExist) ∧
    (∀ s : Session, lookupKV r.sessions id = some s →
      r.get id "" = .ok ((lookupKV s "").getD "")) := by
  refine ⟨?_, ?_, ?_⟩
  · unfold Room.get
    rcases accessCheck_empty_key r id with hac | hac
    · rw [hac]; intro hcon; exact Except.noConfusion hcon
    · rw [hac]; intro hcon; simp at hcon
  · intro h
    unfold Room.get
    rw [accessCheck_absent r id "" h]
  · intro s hs
    have hw : id ∈ r.watchers := by
      rw [← hInv]
      exact mem_of_lookupKV_isSome (by simp [hs])
    unfold Room.get Room.accessCheck
    simp [hs, hw]

/-- Witness for C10: the stored empty-key value is returned, and on a session
without it `Get(id, "")` yields `""`, not `KeyNotFound`. -/
theorem claim_C10_empty_key_witness :
    (Room.mk [("a", [("", "x")])] ["a"]).get "a" "" = .ok "x" ∧
    (Room.mk [("a", [])] ["a"]).get "a" "" = .ok "" ∧
    (Room.mk [("a", [])] ["a"]).get "a" "" ≠ .error Err.keyDoesntExist :=
  ⟨by simpa using (claim_C10_empty_key ⟨[("a", [("", "x")])], ["a"]⟩ "a" rfl).2.2 [("", "x")] rfl,
   by simpa using (claim_C10_empty_key ⟨[("a", [])], ["a"]⟩ "a" rfl).2.2 [] rfl,
   (claim_C10_empty_key ⟨[("a", [])], ["a"]⟩ "a" rfl).1⟩

/-- Claim C2 counterexample: on a room where session `"a"` exists and holds no
binding for the key `""`, `Get("a", "")` succeeds with `""` instead of
returning `ErrKeyDoesntExist`, refuting the clause that the missing-key error
holds with no exception for any particular key string. -/
theorem claim_C2_counterexample :
    lookupKV (Room.mk [("a", [])] ["a"]).sessions "a" = some [] ∧
    lookupKV ((lookupKV (Room.mk [("a", [])] ["a"]).sessions "a").getD []) "" = none ∧
    (Room.mk [("a", [])] ["a"]).get "a" "" = .ok "" ∧
    (Room.mk [("a", [])] ["a"]).get "a" "" ≠ .error Err.keyDoesntExist := by
  refine ⟨rfl, rfl, rfl, ?_⟩
  intro hcon
  rw [show (Room.mk [("a", [])] ["a"]).get "a" "" = .ok "" from rfl] at hcon
  exact Except.noConfusion hcon

/-- Claim C2 as amended: with the maps in lock-step, `Get(id, key)` returns
`ErrDoesntExist` when `id` has no session; when the session exists and
`key ≠ ""`, it returns `ErrKeyDoesntExist` when `key` is absent and the stored
value when present.  (For `key = ""` the key check is skipped; see C10.) -/
theorem claim_C2_get_errors (r : Room) (id key : String)
    (hInv : r.sessions.map Prod.fst = r.watchers) :
    (lookupKV r.sessions id = none → r.get id key = .error Err.doesntExist) ∧
    (∀ s : Session, lookupKV r.sessions id = some s → key ≠ "" →
      (lookupKV s key = none → r.get id key = .error Err.keyDoesntExist) ∧
      (∀ v : String, lookupKV s key = some v → r.get id key = .ok v)) := by
  constructor
  · intro h
    unfold Room.get
    rw [accessCheck_absent r id key h]
  · intro s hs hkey
    have hw : id ∈ r.watchers := by
      rw [← hInv]
      exact mem_of_lookupKV_isSome (by simp [hs])
    constructor
    · intro hmiss
      unfold Room.get Room.accessCheck
      simp [hs, hw, hkey, hmiss]
    · intro v hv
      exact get_ok r id key v s hs hw hv

/-- Witness for the amended C2 on a one-session room: absent session, absent
nonempty key, and present key. -/
theorem claim_C2_get_errors_witness :
    (Room.mk [("a", [("k", "v")])] ["a"]).get "b" "k" = .error Err.doesntExist ∧
    (Room.mk [("a", [("k", "v")])] ["a"]).get "a" "missing" = .error Err.keyDoesntExist ∧
    (Room.mk [("a", [("k", "v")])] ["a"]).get "a" "k" = .ok "v" :=
  ⟨(claim_C2_get_errors ⟨[("a", [("k", "v")])], ["a"]⟩ "b" "k" rfl).1 rfl,
   ((claim_C2_get_errors ⟨[("a", [("k", "v")])], ["a"]⟩ "a" "missing" rfl).2
     [("k", "v")] rfl (by decide)).1 rfl,
   ((claim_C2_get_errors ⟨[("a", [("k", "v")])], ["a"]⟩ "a" "k" rfl).2
     [("k", "v")] rfl (by decide)).2 "v" rfl⟩

/-! ## GetBatch -/

theorem getValues_ok (s : Session) (keys : List String)
    (h : ∀ k ∈ keys, (lookupKV s k).isSome) :
    getValues s keys = .ok (keys.map (fun k => (lookupKV s k).getD "")) := by
  induction keys with
  | nil => rfl
  | cons k ks ih =>
    cases he : lookupKV s k with
    | none =>
      have := h k (by simp)
      rw [he] at this
      simp at this
    | some v =>
      have hrest := ih (fun k hk => h k (List.mem_cons_of_mem _ hk))
      simp [getValues, he, hrest]

theorem getValues_err (s : Session) (keys : List String)
    (h : ∃ k ∈ keys, lookupKV s k = none) :
    getValues s keys = .error Err.keyDoesntExist := by
  induction keys with
  | nil => simp at h
  | cons k ks ih =>
    cases he : lookupKV s k with
    | none => simp [getValues, he]
    | some v =>
      obtain ⟨k', hk', hnone⟩ := h
      rcases List.mem_cons.mp hk' with hkk | hks
      · rw [hkk] at hnone
        rw [hnone] at he
        exact Option.noConfusion he
      · have hrest := ih ⟨k', hks, hnone⟩
        simp [getValues, he, hrest]

/-- Claim C3: with the maps in lock-step, `GetBatch` is all-or-nothing: on an
absent session it returns `ErrDoesntExist`; on an existing session it returns
the values of all the keys, in the order the keys were given, when every key
is bound, and `ErrKeyDoesntExist` with no values at all when any key is
missing. -/
theorem claim_C3_getBatch_all_or_nothing (r : Room) (id : String) (keys : List String)
    (hInv : r.sessions.map Prod.fst = r.watchers) :
    (lookupKV r.sessions id = none → r.getBatch id keys = .error Err.doesntExist) ∧
    (∀ s : Session, lookupKV r.sessions id = some s →
      ((∀ k ∈ keys, (lookupKV s k).isSome) →
        r.getBatch id keys = .ok (keys.map (fun k => (lookupKV s k).getD ""))) ∧
      ((∃ k ∈ keys, lookupKV s k = none) →
        r.getBatch id keys = .error Err.keyDoesntExist)) := by
  constructor
  · intro h
    unfold Room.getBatch
    rw [accessCheck_absent r id "" h]
  · intro s hs
    have hw : id ∈ r.watchers := by
      rw [← hInv]
      exact mem_of_lookupKV_isSome (by simp [hs])
    have hac : r.accessCheck id "" = none :=
      (accessCheck_empty_key_none_iff r id).mpr ⟨by simp [hs], hw⟩
    constructor
    · intro hall
      unfold Room.getBatch
      rw [hac, hs]
      exact getValues_ok s keys hall
    · intro hmiss
      unfold Room.getBatch
      rw [hac, hs]
      exact getValues_err s keys hmiss

/-- Witness for C3 on a room with one session holding only `"k1"`: the full
batch succeeds in order, a batch with a missing key fails with no values, and
an absent session fails with `NotFound`. -/
theorem claim_C3_getBatch_all_or_nothing_witness :
    (Room.mk [("a", [("k1", "v1"), ("k2", "v2")])] ["a"]).getBatch "a" ["k2", "k1"]
      = .ok ["v2", "v1"] ∧
    (Room.mk [("a", [("k1", "v1")])] ["a"]).getBatch "a" ["k1", "k2"]
      = .error Err.keyDoesntExist ∧
    (Room.mk [("a", [("k1", "v1")])] ["a"]).getBatch "b" ["k1"]
      = .error Err.doesntExist := by
  refine ⟨?_, ?_, ?_⟩
  · have := ((claim_C3_getBatch_all_or_nothing
      ⟨[("a", [("k1", "v1"), ("k2", "v2")])], ["a"]⟩ "a" ["k2", "k1"] rfl).2
      [("k1", "v1"), ("k2", "v2")] rfl).1 (by decide)
    simpa using this
  · exact ((claim_C3_getBatch_all_or_nothing
      ⟨[("a", [("k1", "v1")])], ["a"]⟩ "a" ["k1", "k2"] rfl).2
      [("k1", "v1")] rfl).2 ⟨"k2", by decide, rfl⟩
  · exact (claim_C3_getBatch_all_or_nothing
      ⟨[("a", [("k1", "v1")])], ["a"]⟩ "b" ["k1"] rfl).1 rfl

/-- Claim C6: sessions are isolated and `Set` inserts or overwrites: with two
distinct existing sessions `a` and `b`, `Set(a,k,v1)` then `Set(b,k,v2)` both
succeed, after which `Get(a,k)` yields `v1` and `Get(b,k)` yields `v2`, and a
later `Set(a,k,v3)` replaces the earlier value. -/
theorem claim_C6_isolation (r : Room) (a b k v1 v2 v3 : String)
    (hInv : r.sessions.map Prod.fst = r.watchers) (hab : a ≠ b)
    (ha : (lookupKV r.sessions a).isSome) (hb : (lookupKV r.sessions b).isSome) :
    (r.set a k v1).1 = none ∧
    ((r.set a k v1).2.set b k v2).1 = none ∧
    ((r.set a k v1).2.set b k v2).2.get a k = .ok v1 ∧
    ((r.set a k v1).2.set b k v2).2.get b k = .ok v2 ∧
    ((((r.set a k v1).2.set b k v2).2.set a k v3).2.get a k = .ok v3) := by
  obtain ⟨sa, hsa⟩ := Option.isSome_iff_exists.mp ha
  obtain ⟨sb, hsb⟩ := Option.isSome_iff_exists.mp hb
  have hwa : a ∈ r.watchers := by
    rw [← hInv]; exact mem_of_lookupKV_isSome ha
  have hwb : b ∈ r.watchers := by
    rw [← hInv]; exact mem_of_lookupKV_isSome hb
  have e1 := set_ok r a k v1 ha hwa
  set r1 : Room := { r with sessions := setSession r.sessions a k v1 } with hr1
  have hr1s : lookupKV r1.sessions b = some sb := by
    rw [hr1]
    simp only []
    rw [lookupKV_setSession, if_neg (Ne.symm hab), hsb]
  have hr1a : lookupKV r1.sessions a = some (setKV sa k v1) := by
    rw [hr1]
    simp only []
    rw [lookupKV_setSession, if_pos rfl, hsa]
    rfl
  have e2 := set_ok r1 b k v2 (by simp [hr1s]) hwb
  set r2 : Room := { r1 with sessions := setSession r1.sessions b k v2 } with hr2
  have hr2a : lookupKV r2.sessions a = some (setKV sa k v1) := by
    rw [hr2]
    simp only []
    rw [lookupKV_setSession, if_neg hab, hr1a]
  have hr2b : lookupKV r2.sessions b = some (setKV sb k v2) := by
    rw [hr2]
    simp only []
    rw [lookupKV_setSession, if_pos rfl, hr1s]
    rfl
  have e3 := set_ok r2 a k v3 (by simp [hr2a]) hwa
  set r3 : Room := { r2 with sessions := setSession r2.sessions a k v3 } with hr3
  have hr3a : lookupKV r3.sessions a = some (setKV (setKV sa k v1) k v3) := by
    rw [hr3]
    simp only []
    rw [lookupKV_setSession, if_pos rfl, hr2a]
    rfl
  have hfst : (r.set a k v1).2 = r1 := by rw [e1]
  have hsnd : (r1.set b k v2).2 = r2 := by rw [e2]
  refine ⟨by rw [e1], by rw [hfst, e2], ?_, ?_, ?_⟩
  · rw [hfst, hsnd]
    exact get_ok r2 a k v1 (setKV sa k v1) hr2a hwa (lookupKV_setKV_self sa k v1)
  · rw [hfst, hsnd]
    exact get_ok r2 b k v2 (setKV sb k v2) hr2b hwb (lookupKV_setKV_self sb k v2)
  · rw [hfst, hsnd, e3]
    exact get_ok r3 a k v3 (setKV (setKV sa k v1) k v3) hr3a hwa
      (lookupKV_setKV_self (setKV sa k v1) k v3)

/-- Witness for C6 on a room with the two empty sessions `"a"` and `"b"`. -/
theorem claim_C6_isolation_witness :
    let r : Room := ⟨[("a", []), ("b", [])], ["a", "b"]⟩
    ((r.set "a" "k" "v1").2.set "b" "k" "v2").2.get "a" "k" = .ok "v1" ∧
    ((r.set "a" "k" "v1").2.set "b" "k" "v2").2.get "b" "k" = .ok "v2" ∧
    ((((r.set "a" "k" "v1").2.set "b" "k" "v2").2.set "a" "k" "v3").2.get "a" "k" = .ok "v3") :=
  ⟨(claim_C6_isolation ⟨[("a", []), ("b", [])], ["a", "b"]⟩ "a" "b" "k" "v1" "v2" "v3"
      rfl (by decide) rfl rfl).2.2.1,
   (claim_C6_isolation ⟨[("a", []), ("b", [])], ["a", "b"]⟩ "a" "b" "k" "v1" "v2" "v3"
      rfl (by decide) rfl rfl).2.2.2.1,
   (claim_C6_isolation ⟨[("a", []), ("b", [])], ["a", "b"]⟩ "a" "b" "k" "v1" "v2" "v3"
      rfl (by decide) rfl rfl).2.2.2.2⟩

/-! ## The timer state machine and the expiration deadlock -/

theorem watchRun_terminated (d : Nat) (iden : String) (es : List TimerEvent) :
    watchRun d iden .terminated es = (.terminated, []) := by
  induction es with
  | nil => rfl
  | cons e es ih =>
    cases e <;> simp [watchRun, watchStep, ih]

/-- Claim C8: the `watch` timer is a two-state machine: an activity signal
resets the countdown to the full lifetime and keeps it armed; a timeout emits
the session identifier once and terminates it; no step leaves the terminated
state or emits again, so over any event sequence an armed timer emits its
identifier at most once and a terminated one never. -/
theorem claim_C8_timer_machine (d : Nat) (iden : String) (l : Nat) (es : List TimerEvent) :
    watchStep d iden (.armed l) .ping = (.armed d, []) ∧
    watchStep d iden (.armed l) .timeout = (.terminated, [iden]) ∧
    (∀ e : TimerEvent, watchStep d iden .terminated e = (.terminated, [])) ∧
    ((watchRun d iden (.armed l) es).2 = [] ∨ (watchRun d iden (.armed l) es).2 = [iden]) ∧
    (watchRun d iden .terminated es).2 = [] := by
  refine ⟨rfl, rfl, fun e => by cases e <;> rfl, ?_, by rw [watchRun_terminated]⟩
  induction es generalizing l with
  | nil => left; rfl
  | cons e es ih =>
    cases e with
    | ping =>
      simpa [watchRun, watchStep] using ih d
    | timeout =>
      right
      simp [watchRun, watchStep, watchRun_terminated]

/-- Claim C1 is refuted by the code: from the state right after `Add` (row
present, timer armed, reaper listening, one client about to `Get`), the system
reaches `sysStuck`, a state with no enabled transition in which the session
row still exists and the client holds the table mutex blocked forever on the
unbuffered activity send — the whole `Room` is deadlocked.  The trace: the
timer fires, hands the identifier to the reaper over the unbuffered killer
channel and exits; before the delete of the reaper can take the mutex, the
client takes it, passes `accessCheck` (the row is still there) and blocks on
`r.watchers[iden] <- struct{}{}` with no receiver left. -/
theorem claim_C1_deadlock :
    SysReach sysStuck ∧ sysSuccs sysStuck = [] ∧
    sysStuck.client = .sendPing ∧ sysStuck.session = true := by
  have h1 : SysReach ⟨.sendKill, .recvKill, .start, true⟩ :=
    SysReach.step SysReach.init (by decide)
  have h2 : SysReach ⟨.exited, .delPending, .start, true⟩ :=
    SysReach.step h1 (by decide)
  exact ⟨SysReach.step h2 (by decide), by decide, rfl, rfl⟩

end Gosh
